import Mathlib

/-!
Verification of the fleet-net repository core against its specification.

Shallow embedding conventions:
* Rust `u64` / `u32` / `u16` / `u8` values are modelled as `Nat`; wherever the
  source truncates, an explicit `% 256` (etc.) appears.  Bitwise `x & !y` on
  `u64` is modelled by `and_not x y` (identical bit pattern on bits 0..63,
  and both sides are zero above bit 63 for in-range values).
* Byte buffers are `List Nat` (each entry one byte).
* Rust `HashMap<String, _>` with unique keys is modelled as an association
  list read through `List.lookup`.
* The recursive permission resolver takes an explicit `fuel` bound on the
  recursion depth; `none` means the recursion did not finish within `fuel`
  nested parent lookups (the Rust source recurses without any guard).
* External library calls (SHA-256 digests, serde deserialization, PEM
  parsing, rustls config builders) are parameters of the embedded functions,
  so every theorem quantifies over their behaviour.
-/

namespace FleetNet

/-- Error taxonomy of `fleet-net-common/src/error.rs` (`FleetNetError`).
Each variant carries its message string. -/
inductive FleetNetError where
  | NetworkError (msg : String)
  | AudioError (msg : String)
  | PacketError (msg : String)
  | JsonError (msg : String)
  | AuthError (msg : String)
  | PermissionError (msg : String)
  | FileSystemError (msg : String)
  | EncryptionError (msg : String)
deriving DecidableEq, Repr

/-! ## Permission bit constants (`fleet-net-common/src/permission.rs`) -/

/-- `permissions::CONNECT = 1 << 0`. -/
def CONNECT : Nat := 1 <<< 0

/-- `permissions::SPEAK = 1 << 1`. -/
def SPEAK : Nat := 1 <<< 1

/-- `permissions::LISTEN = 1 << 2`. -/
def LISTEN : Nat := 1 <<< 2

/-- `permissions::MOVE_USERS = 1 << 3`. -/
def MOVE_USERS : Nat := 1 <<< 3

/-- `permissions::BAN_USERS = 1 << 6`. -/
def BAN_USERS : Nat := 1 <<< 6

/-- `permissions::ADMINISTRATOR = 1 << 63`. -/
def ADMINISTRATOR : Nat := 1 <<< 63

/-- `PermissionSet` wraps a 64-bit permission bitmask. -/
structure PermissionSet where
  permissions : Nat
deriving DecidableEq, Repr

/-- `PermissionSet::has`: if the ADMINISTRATOR bit is set the check
short-circuits to `true`; otherwise it tests `permissions & permission != 0`. -/
def PermissionSet.has (s : PermissionSet) (permission : Nat) : Bool :=
  if s.permissions &&& ADMINISTRATOR != 0 then true
  else s.permissions &&& permission != 0

/-- Rust `x & !y` on `u64`.  Written as `x ^^^ (x &&& y)`, which has the same
bit pattern (`x_b && !y_b` at every position `b`, and zero above bit 63 when
`x < 2^64`) while using only kernel-computable operations. -/
def and_not (x y : Nat) : Nat := x ^^^ (x &&& y)

theorem testBit_and_not (x y b : Nat) :
    (and_not x y).testBit b = (x.testBit b && !(y.testBit b)) := by
  simp only [and_not, Nat.testBit_xor, Nat.testBit_land]
  cases x.testBit b <;> cases y.testBit b <;> rfl

/-! ## Channels and roles (`fleet-net-common/src/channel.rs`, `role.rs`) -/

/-- `ChannelType` of `channel.rs`. -/
inductive ChannelType where
  | Voice
  | Radio
  | Category
deriving DecidableEq, Repr

/-- `ChannelPermissions`: per-role allow/deny 64-bit masks. -/
structure ChannelPermissions where
  allow : Nat
  deny : Nat
deriving DecidableEq, Repr

/-- `ChannelPermissions::compute_final_permissions`: `allow & !deny`. -/
def ChannelPermissions.compute_final_permissions (p : ChannelPermissions) : Nat :=
  and_not p.allow p.deny

/-- `Role` of `role.rs` (the fields the resolver reads). -/
structure Role where
  id : String
  name : String
  permissions : Nat
  priority : Nat
deriving DecidableEq, Repr

/-- `Channel` of `channel.rs`; `role_permissions` is the HashMap modelled as an
association list with unique keys, `parent_id` uses channel ids (`u16`). -/
structure Channel where
  id : Nat
  name : String
  description : Option String
  channel_type : ChannelType
  role_permissions : List (String × ChannelPermissions)
  position : Nat
  parent_id : Option Nat
deriving DecidableEq, Repr

/-- One iteration of the role loop in `Channel::compute_user_permissions`
(steps 1-2 of the algorithm).  `acc = (final_permissions, checked_permissions)`.
If the channel has an override for the role: allows not yet checked are ORed
into both accumulators first, then denies not yet checked are cleared from
`final_permissions` and marked checked. -/
def roleStep (ch : Channel) (acc : Nat × Nat) (role : Role) : Nat × Nat :=
  match List.lookup role.id ch.role_permissions with
  | some channel_perms =>
    let new_allows := and_not channel_perms.allow acc.2
    let fp1 := acc.1 ||| new_allows
    let ck1 := acc.2 ||| new_allows
    let new_denies := and_not channel_perms.deny ck1
    (and_not fp1 new_denies, ck1 ||| new_denies)
  | none => acc

/-- The full role loop of `Channel::compute_user_permissions`, starting from
`final_permissions = 0`, `checked_permissions = 0`. -/
def rolesFold (ch : Channel) (user_roles : List Role) : Nat × Nat :=
  user_roles.foldl (roleStep ch) (0, 0)

/-- Step 4 of `Channel::compute_user_permissions`: for bits still unchecked,
OR in the base permissions of the highest-precedence role (`user_roles.first()`),
if any role exists. -/
def step4 (user_roles : List Role) (fp ck : Nat) : Nat :=
  match user_roles with
  | [] => fp
  | r :: _ => fp ||| and_not r.permissions ck

/-- One unfolding of `Channel::compute_user_permissions`, parameterized by the
result of the recursive call on the parent channel.  Mirrors the source: role
loop, then parent inheritance (`final |= parent_perms & !checked;
checked |= parent_perms`), then the step-4 fallback. -/
def computeStep (recurse : Channel → Option Nat) (ch : Channel)
    (user_roles : List Role) (get_parent_channel : Nat → Option Channel) : Option Nat :=
  let acc := rolesFold ch user_roles
  match ch.parent_id with
  | none => some (step4 user_roles acc.1 acc.2)
  | some pid =>
    match get_parent_channel pid with
    | none => some (step4 user_roles acc.1 acc.2)
    | some parent =>
      match recurse parent with
      | none => none
      | some parent_perms =>
        some (step4 user_roles (acc.1 ||| and_not parent_perms acc.2)
          (acc.2 ||| parent_perms))

/-- `Channel::compute_user_permissions` with an explicit recursion-depth bound
`fuel`.  The Rust source recurses through `get_parent_channel` with no guard;
`none` means the chain of resolvable parents is deeper than `fuel` (in
particular, a cyclic chain yields `none` for every `fuel`). -/
def compute_user_permissions : Nat → Channel → List Role → (Nat → Option Channel) → Option Nat
  | 0, ch, user_roles, get_parent_channel =>
    computeStep (fun _ => none) ch user_roles get_parent_channel
  | Nat.succ f, ch, user_roles, get_parent_channel =>
    computeStep (fun parent => compute_user_permissions f parent user_roles get_parent_channel)
      ch user_roles get_parent_channel

/-- `true` when the chain of resolvable parents starting at `ch` ends (reaches
a channel with no parent, or an unresolvable parent id) within `n` recursive
steps.  This is the acyclicity bound used to show termination. -/
def chainOk (get_parent_channel : Nat → Option Channel) : Nat → Channel → Bool
  | 0, ch =>
    match ch.parent_id with
    | none => true
    | some pid => (get_parent_channel pid).isNone
  | Nat.succ n, ch =>
    match ch.parent_id with
    | none => true
    | some pid =>
      match get_parent_channel pid with
      | none => true
      | some parent => chainOk get_parent_channel n parent

/-! ## Helper lemmas on the resolver -/

theorem and_not_zero_left (n : Nat) : and_not 0 n = 0 := by
  apply Nat.eq_of_testBit_eq
  intro i
  simp [testBit_and_not]

theorem compute_empty_roles_aux (fuel : Nat) :
    ∀ (ch : Channel) (lookup : Nat → Option Channel),
      compute_user_permissions fuel ch [] lookup = none ∨
      compute_user_permissions fuel ch [] lookup = some 0 := by
  induction fuel with
  | zero =>
    intro ch lookup
    cases hpar : ch.parent_id with
    | none =>
      right
      simp [compute_user_permissions, computeStep, rolesFold, step4, hpar]
    | some pid =>
      cases hlook : lookup pid with
      | none =>
        right
        simp [compute_user_permissions, computeStep, rolesFold, step4, hpar, hlook]
      | some parent =>
        left
        simp [compute_user_permissions, computeStep, rolesFold, hpar, hlook]
  | succ f ih =>
    intro ch lookup
    cases hpar : ch.parent_id with
    | none =>
      right
      simp [compute_user_permissions, computeStep, rolesFold, step4, hpar]
    | some pid =>
      cases hlook : lookup pid with
      | none =>
        right
        simp [compute_user_permissions, computeStep, rolesFold, step4, hpar, hlook]
      | some parent =>
        rcases ih parent lookup with hrec | hrec
        · left
          simp [compute_user_permissions, computeStep, rolesFold, hpar, hlook, hrec]
        · right
          simp [compute_user_permissions, computeStep, rolesFold, step4, hpar, hlook,
            hrec, and_not_zero_left]

/-- Claim C6: with an empty role list, `compute_user_permissions` yields 0 on
every input on which the recursion terminates, for every channel and every
parent lookup (the role loop contributes nothing, parents resolve to 0 by
induction, and the step-4 fallback is skipped). -/
theorem c6_empty_roles_zero (fuel : Nat) (ch : Channel) (lookup : Nat → Option Channel) :
    compute_user_permissions fuel ch [] lookup = none ∨
    compute_user_permissions fuel ch [] lookup = some 0 :=
  compute_empty_roles_aux fuel ch lookup

/-! ## Claim C7: PermissionSet.has -/

theorem and_two_pow_ne_zero_iff (n i : Nat) : n &&& 2 ^ i ≠ 0 ↔ n.testBit i = true := by
  rw [Nat.and_two_pow]
  cases h : n.testBit i <;> simp [h, Nat.pos_iff_ne_zero]

/-- Claim C7: `PermissionSet.has` returns `true` for every argument whenever
the ADMINISTRATOR bit (bit 63) is set; when ADMINISTRATOR is clear, for a
single-bit argument `2 ^ i` it returns `true` exactly when bit `i` is present
in the set. -/
theorem c7_has_admin_and_single_bit (s : PermissionSet) (p i : Nat) :
    (s.permissions.testBit 63 = true → s.has p = true) ∧
    (s.permissions.testBit 63 = false → (s.has (2 ^ i) = true ↔ s.permissions.testBit i = true)) := by
  have hadmin : ADMINISTRATOR = 2 ^ 63 := by
    simp [ADMINISTRATOR, Nat.shiftLeft_eq]
  constructor
  · intro h63
    have hne : (s.permissions &&& ADMINISTRATOR != 0) = true := by
      rw [hadmin]
      simpa [bne_iff_ne] using (and_two_pow_ne_zero_iff s.permissions 63).2 h63
    simp [PermissionSet.has, hne]
  · intro h63
    have hadm : (s.permissions &&& ADMINISTRATOR != 0) = false := by
      rw [hadmin, Nat.and_two_pow, h63]
      simp
    simp only [PermissionSet.has, hadm, Bool.false_eq_true, if_false, bne_iff_ne, ne_eq,
      decide_eq_true_eq]
    exact and_two_pow_ne_zero_iff s.permissions i

/-- Concrete instantiation of claim C7: a set holding only ADMINISTRATOR
reports `has BAN_USERS`; a set holding only SPEAK reports `has SPEAK` exactly
because bit 1 is present. -/
theorem c7_has_admin_witness :
    (PermissionSet.mk (2 ^ 63)).has BAN_USERS = true ∧
    ((PermissionSet.mk 2).has (2 ^ 1) = true ↔ (2 : Nat).testBit 1 = true) :=
  ⟨(c7_has_admin_and_single_bit (PermissionSet.mk (2 ^ 63)) BAN_USERS 0).1 (by decide),
   (c7_has_admin_and_single_bit (PermissionSet.mk 2) 0 1).2 (by decide)⟩

/-! ## Claim C2: termination and cycles -/

theorem compute_succ_parent_none (f : Nat) (ch parent : Channel) (user_roles : List Role)
    (lookup : Nat → Option Channel) (pid : Nat)
    (hpar : ch.parent_id = some pid) (hlook : lookup pid = some parent)
    (hrec : compute_user_permissions f parent user_roles lookup = none) :
    compute_user_permissions (f + 1) ch user_roles lookup = none := by
  simp [compute_user_permissions, computeStep, hpar, hlook, hrec]

/-- A two-channel parent cycle: channel 1 has parent 2, channel 2 has parent 1.
Both channels satisfy the `Channel::validate` self-parenting check. -/
def cycChannelA : Channel :=
  ⟨1, "cyc-a", none, ChannelType.Voice, [], 0, some 2⟩

def cycChannelB : Channel :=
  ⟨2, "cyc-b", none, ChannelType.Voice, [], 0, some 1⟩

def cycLookup : Nat → Option Channel
  | 1 => some cycChannelA
  | 2 => some cycChannelB
  | _ => none

theorem cyc_diverges_aux (fuel : Nat) :
    compute_user_permissions fuel cycChannelA [] cycLookup = none ∧
    compute_user_permissions fuel cycChannelB [] cycLookup = none := by
  induction fuel with
  | zero => exact ⟨rfl, rfl⟩
  | succ f ih =>
    exact ⟨compute_succ_parent_none f cycChannelA cycChannelB [] cycLookup 2 rfl rfl ih.2,
           compute_succ_parent_none f cycChannelB cycChannelA [] cycLookup 1 rfl rfl ih.1⟩

/-- The resolution of `cycChannelA` through the cyclic lookup yields no result
for any recursion budget: the recursion never terminates. -/
def cycResolutionDiverges : Prop :=
  ∀ fuel : Nat, compute_user_permissions fuel cycChannelA [] cycLookup = none

/-- Claim C2 counterexample: on the concrete cyclic parent chain
`cycChannelA ↔ cycChannelB` the resolver does not detect the cycle and fail
fast; it recurses forever (no recursion budget is ever enough), refuting the
claimed cycle detection. -/
theorem c2_cycle_not_detected : cycResolutionDiverges :=
  fun fuel => (cyc_diverges_aux fuel).1

/-- Claim C2 (amended): `Channel::compute_user_permissions` contains no cycle
detection.  On an acyclic parent chain (one whose resolvable parents end
within the recursion budget, `chainOk`) it terminates normally with a result;
on a cyclic parent chain it recurses without ever producing a result rather
than failing fast. -/
theorem c2_terminates_on_bounded_chains (fuel : Nat) :
    ∀ (ch : Channel) (user_roles : List Role) (lookup : Nat → Option Channel),
      chainOk lookup fuel ch = true →
      (compute_user_permissions fuel ch user_roles lookup).isSome = true := by
  induction fuel with
  | zero =>
    intro ch user_roles lookup hok
    cases hpar : ch.parent_id with
    | none => simp [compute_user_permissions, computeStep, hpar]
    | some pid =>
      cases hlook : lookup pid with
      | none => simp [compute_user_permissions, computeStep, hpar, hlook]
      | some parent =>
        exfalso
        simp [chainOk, hpar, hlook] at hok
  | succ f ih =>
    intro ch user_roles lookup hok
    cases hpar : ch.parent_id with
    | none => simp [compute_user_permissions, computeStep, hpar]
    | some pid =>
      cases hlook : lookup pid with
      | none => simp [compute_user_permissions, computeStep, hpar, hlook]
      | some parent =>
        have hok2 : chainOk lookup f parent = true := by
          simpa [chainOk, hpar, hlook] using hok
        have hsome := ih parent user_roles lookup hok2
        cases hrec : compute_user_permissions f parent user_roles lookup with
        | none => rw [hrec] at hsome; simp at hsome
        | some pp => simp [compute_user_permissions, computeStep, hpar, hlook, hrec]

/-- A channel with no parent at all. -/
def plainChannel : Channel := ⟨3, "plain", none, ChannelType.Voice, [], 0, none⟩

/-- Witness for the amended claim C2 at a concrete acyclic input. -/
theorem c2_terminates_witness :
    chainOk cycLookup 0 plainChannel = true ∧
    (compute_user_permissions 0 plainChannel [] cycLookup).isSome = true :=
  ⟨by decide, c2_terminates_on_bounded_chains 0 plainChannel [] cycLookup (by decide)⟩

/-! ## Claim C1: parent inheritance merges only the parent resulting bits -/

/-- Parent channel that explicitly denies SPEAK for role `r` and allows
nothing; its own resolution for `[speakRole]` is 0. -/
def denyParentChannel : Channel :=
  ⟨1, "parent", none, ChannelType.Category, [("r", ⟨0, SPEAK⟩)], 0, none⟩

/-- Child channel of `denyParentChannel`, with no overrides of its own. -/
def childChannel : Channel :=
  ⟨2, "child", none, ChannelType.Voice, [], 0, some 1⟩

def childLookup : Nat → Option Channel
  | 1 => some denyParentChannel
  | _ => none

/-- The only role of the user: base permissions grant SPEAK. -/
def speakRole : Role := ⟨"r", "member", SPEAK, 1⟩

/-- Claim C1 counterexample: the parent chain explicitly denies SPEAK (the
parent resolves to 0 with SPEAK decided by an explicit deny), yet the child
resolution re-grants SPEAK through the step-4 fallback to the base role
permissions, because only the parent resulting bits are merged into
`checked_permissions` and a denied bit is 0 there. -/
theorem c1_parent_denied_bit_regranted :
    compute_user_permissions 5 denyParentChannel [speakRole] childLookup = some 0 ∧
    compute_user_permissions 5 childChannel [speakRole] childLookup = some SPEAK := by
  constructor <;> rfl

/-- Claim C1 (amended): when the parent is resolvable, for every bit not yet
checked the parent resulting bit is inherited into `final_permissions`, and
only the parent resulting (granted) bitmask `parent_perms` is merged into
`checked_permissions`.  Bits the parent decided by denying them are 0 in
`parent_perms`, hence stay unchecked, so the step-4 fallback can re-grant a
bit the parent chain explicitly denied. -/
theorem c1_parent_merge (f : Nat) (ch parent : Channel) (user_roles : List Role)
    (lookup : Nat → Option Channel) (pid parent_perms : Nat)
    (hpar : ch.parent_id = some pid) (hlook : lookup pid = some parent)
    (hrec : compute_user_permissions f parent user_roles lookup = some parent_perms) :
    compute_user_permissions (f + 1) ch user_roles lookup =
      some (step4 user_roles
        ((rolesFold ch user_roles).1 ||| and_not parent_perms (rolesFold ch user_roles).2)
        ((rolesFold ch user_roles).2 ||| parent_perms)) := by
  simp [compute_user_permissions, computeStep, hpar, hlook, hrec]

/-- Witness for the amended claim C1 at the concrete parent-deny input. -/
theorem c1_parent_merge_witness :
    compute_user_permissions 5 childChannel [speakRole] childLookup =
      some (step4 [speakRole]
        ((rolesFold childChannel [speakRole]).1 |||
          and_not 0 (rolesFold childChannel [speakRole]).2)
        ((rolesFold childChannel [speakRole]).2 ||| 0)) :=
  c1_parent_merge 4 childChannel denyParentChannel [speakRole] childLookup 1 0 rfl rfl rfl

/-! ## Claim C10: a bit in both allow and deny of the same override is granted -/

theorem step4_bit (user_roles : List Role) (fp ck b : Nat)
    (h : fp.testBit b = true) : (step4 user_roles fp ck).testBit b = true := by
  cases user_roles with
  | nil => exact h
  | cons r rest => simp [step4, Nat.testBit_lor, h]

theorem roleStep_preserves_bit (ch : Channel) (acc : Nat × Nat) (r : Role) (b : Nat)
    (h1 : acc.1.testBit b = true) (h2 : acc.2.testBit b = true) :
    ((roleStep ch acc r).1.testBit b = true) ∧ ((roleStep ch acc r).2.testBit b = true) := by
  unfold roleStep
  cases List.lookup r.id ch.role_permissions with
  | none => exact ⟨h1, h2⟩
  | some cp => simp [Nat.testBit_lor, testBit_and_not, h1, h2]

theorem foldl_roleStep_preserves_bit (ch : Channel) (user_roles : List Role) (b : Nat) :
    ∀ acc : Nat × Nat, acc.1.testBit b = true → acc.2.testBit b = true →
      ((user_roles.foldl (roleStep ch) acc).1.testBit b = true) ∧
      ((user_roles.foldl (roleStep ch) acc).2.testBit b = true) := by
  induction user_roles with
  | nil => intro acc h1 h2; exact ⟨h1, h2⟩
  | cons r rest ih =>
    intro acc h1 h2
    have h := roleStep_preserves_bit ch acc r b h1 h2
    simpa only [List.foldl_cons] using ih (roleStep ch acc r) h.1 h.2

theorem roleStep_sets_bit (ch : Channel) (acc : Nat × Nat) (r : Role) (b : Nat)
    (o : ChannelPermissions)
    (ho : List.lookup r.id ch.role_permissions = some o)
    (hallow : o.allow.testBit b = true)
    (hck : acc.2.testBit b = false) :
    ((roleStep ch acc r).1.testBit b = true) ∧ ((roleStep ch acc r).2.testBit b = true) := by
  unfold roleStep
  rw [ho]
  simp [Nat.testBit_lor, testBit_and_not, hallow, hck]

theorem rolesFold_bit (ch : Channel) (pre post : List Role) (r : Role) (b : Nat)
    (o : ChannelPermissions)
    (ho : List.lookup r.id ch.role_permissions = some o)
    (hallow : o.allow.testBit b = true)
    (hpre : ((rolesFold ch pre).2).testBit b = false) :
    ((rolesFold ch (pre ++ r :: post)).1.testBit b = true) ∧
    ((rolesFold ch (pre ++ r :: post)).2.testBit b = true) := by
  unfold rolesFold at hpre ⊢
  rw [List.foldl_append, List.foldl_cons]
  have h := roleStep_sets_bit ch (List.foldl (roleStep ch) (0, 0) pre) r b o ho hallow hpre
  exact foldl_roleStep_preserves_bit ch post b _ h.1 h.2

theorem computeStep_result_bit (recurse : Channel → Option Nat) (ch : Channel)
    (user_roles : List Role) (lookup : Nat → Option Channel) (b v : Nat)
    (h1 : (rolesFold ch user_roles).1.testBit b = true)
    (hcs : computeStep recurse ch user_roles lookup = some v) :
    v.testBit b = true := by
  unfold computeStep at hcs
  split at hcs
  · rw [Option.some.injEq] at hcs
    subst hcs
    exact step4_bit user_roles _ _ b h1
  · split at hcs
    · rw [Option.some.injEq] at hcs
      subst hcs
      exact step4_bit user_roles _ _ b h1
    · split at hcs
      · simp at hcs
      · rw [Option.some.injEq] at hcs
        subst hcs
        exact step4_bit user_roles _ _ b (by simp [Nat.testBit_lor, h1])

theorem compute_result_bit (fuel : Nat) (ch : Channel) (user_roles : List Role)
    (lookup : Nat → Option Channel) (b v : Nat)
    (h1 : (rolesFold ch user_roles).1.testBit b = true)
    (hres : compute_user_permissions fuel ch user_roles lookup = some v) :
    v.testBit b = true := by
  cases fuel with
  | zero =>
    simp only [compute_user_permissions] at hres
    exact computeStep_result_bit _ ch user_roles lookup b v h1 hres
  | succ f =>
    simp only [compute_user_permissions] at hres
    exact computeStep_result_bit _ ch user_roles lookup b v h1 hres

/-- Claim C10: if the first role whose override mentions bit `b` lists `b` in
both its allow and its deny mask, and no earlier role decided `b`, then `b` is
granted in the result of `compute_user_permissions` (allows are applied before
the same override denies, which are then masked out as already checked); this
is the opposite of `ChannelPermissions.compute_final_permissions`, where deny
wins for such a bit. -/
theorem c10_allow_and_deny_same_override (fuel : Nat) (ch : Channel)
    (pre post : List Role) (r : Role) (lookup : Nat → Option Channel) (b : Nat)
    (o : ChannelPermissions) (v : Nat)
    (ho : List.lookup r.id ch.role_permissions = some o)
    (hallow : o.allow.testBit b = true) (hdeny : o.deny.testBit b = true)
    (hpre : ((rolesFold ch pre).2).testBit b = false)
    (hres : compute_user_permissions fuel ch (pre ++ r :: post) lookup = some v) :
    v.testBit b = true ∧ (o.compute_final_permissions).testBit b = false := by
  have hf := rolesFold_bit ch pre post r b o ho hallow hpre
  refine ⟨compute_result_bit fuel ch (pre ++ r :: post) lookup b v hf.1 hres, ?_⟩
  simp [ChannelPermissions.compute_final_permissions, testBit_and_not, hallow, hdeny]

/-- Channel whose override for role `r` lists SPEAK in both allow and deny. -/
def overrideBothChannel : Channel :=
  ⟨4, "both", none, ChannelType.Voice, [("r", ⟨SPEAK, SPEAK⟩)], 0, none⟩

/-- Role matching the override of `overrideBothChannel`, with no base
permissions. -/
def overrideBothRole : Role := ⟨"r", "member", 0, 1⟩

/-- Witness for claim C10 at a concrete input: the resolver grants SPEAK while
`compute_final_permissions` of the same override denies it. -/
theorem c10_witness :
    (2 : Nat).testBit 1 = true ∧
    (ChannelPermissions.compute_final_permissions ⟨SPEAK, SPEAK⟩).testBit 1 = false :=
  c10_allow_and_deny_same_override 0 overrideBothChannel [] [] overrideBothRole
    (fun _ => none) 1 ⟨SPEAK, SPEAK⟩ 2 (by decide) (by decide) (by decide) (by decide) (by decide)

/-! ## Audio packets (`fleet-net-protocol/src/packet.rs`) -/

/-- `PacketError` of `packet.rs`. -/
inductive PacketError where
  | TooShort
  | InvalidLength (expected actual : Nat)
  | InvalidFormat
deriving DecidableEq, Repr

/-- Big-endian bytes of a `u16` (`BufMut::put_u16`). -/
def u16_be (n : Nat) : List Nat := [n / 256 % 256, n % 256]

/-- Big-endian bytes of a `u32` (`BufMut::put_u32`). -/
def u32_be (n : Nat) : List Nat :=
  [n / 16777216 % 256, n / 65536 % 256, n / 256 % 256, n % 256]

/-- `Buf::get_u16`: recombine two big-endian bytes. -/
def get_u16 (b0 b1 : Nat) : Nat := b0 * 256 + b1

/-- `Buf::get_u32`: recombine four big-endian bytes. -/
def get_u32 (b0 b1 b2 b3 : Nat) : Nat :=
  ((b0 * 256 + b1) * 256 + b2) * 256 + b3

/-- `PacketHeader` of `packet.rs` (16 bytes).  The last field is named
`hmac_prefix` in the source. -/
structure PacketHeader where
  channel_id : Nat
  user_id : Nat
  sequence : Nat
  timestamp : Nat
  signal_strength : Nat
  frame_duration : Nat
  audio_length : Nat
  hmacTag16 : Nat
deriving DecidableEq, Repr

/-- `PacketHeader::write_to`: the 16 header bytes in wire order. -/
def PacketHeader.write_to (h : PacketHeader) : List Nat :=
  u16_be h.channel_id ++ u16_be h.user_id ++ u16_be h.sequence ++
    u32_be h.timestamp ++ [h.signal_strength % 256, h.frame_duration % 256] ++
    u16_be h.audio_length ++ u16_be h.hmacTag16

/-- `PacketHeader::read_from`: consume 16 bytes from the front of the buffer
or fail with `TooShort`; returns the header and the remaining bytes. -/
def PacketHeader.read_from (data : List Nat) :
    Except PacketError (PacketHeader × List Nat) :=
  match data with
  | b0 :: b1 :: b2 :: b3 :: b4 :: b5 :: b6 :: b7 :: b8 :: b9 :: b10 :: b11 ::
      b12 :: b13 :: b14 :: b15 :: rest =>
    Except.ok (⟨get_u16 b0 b1, get_u16 b2 b3, get_u16 b4 b5, get_u32 b6 b7 b8 b9,
      b10, b11, get_u16 b12 b13, get_u16 b14 b15⟩, rest)
  | _ => Except.error PacketError.TooShort

/-- `AudioPacket` of `packet.rs`. -/
structure AudioPacket where
  header : PacketHeader
  opus_payload : List Nat
deriving DecidableEq, Repr

/-- `AudioPacket::to_bytes`: header then raw opus payload. -/
def AudioPacket.to_bytes (p : AudioPacket) : List Nat :=
  p.header.write_to ++ p.opus_payload

/-- `AudioPacket::from_bytes`: parse the header, then require the remaining
byte count to equal `audio_length` (else `InvalidLength{expected, actual}`). -/
def AudioPacket.from_bytes (data : List Nat) : Except PacketError AudioPacket :=
  match PacketHeader.read_from data with
  | Except.error e => Except.error e
  | Except.ok (header, rest) =>
    if rest.length ≠ header.audio_length then
      Except.error (PacketError.InvalidLength header.audio_length rest.length)
    else Except.ok ⟨header, rest⟩

theorem u16_be_roundtrip (n : Nat) (h : n < 65536) :
    get_u16 (n / 256 % 256) (n % 256) = n := by
  simp only [get_u16]
  omega

theorem u32_be_roundtrip (n : Nat) (h : n < 4294967296) :
    get_u32 (n / 16777216 % 256) (n / 65536 % 256) (n / 256 % 256) (n % 256) = n := by
  simp only [get_u32]
  omega

/-- Claim C4: for every in-range header whose `audio_length` equals the payload
length, `from_bytes` after `to_bytes` succeeds and reproduces every header
field and the payload exactly. -/
theorem c4_packet_roundtrip (h : PacketHeader) (payload : List Nat)
    (h1 : h.channel_id < 65536) (h2 : h.user_id < 65536) (h3 : h.sequence < 65536)
    (h4 : h.timestamp < 4294967296) (h5 : h.signal_strength < 256)
    (h6 : h.frame_duration < 256) (h7 : h.audio_length < 65536)
    (h8 : h.hmacTag16 < 65536) (hlen : h.audio_length = payload.length) :
    AudioPacket.from_bytes (AudioPacket.to_bytes ⟨h, payload⟩) =
      Except.ok ⟨h, payload⟩ := by
  obtain ⟨cid, uid, seq, ts, ss, fd, al, hm⟩ := h
  simp only at h1 h2 h3 h4 h5 h6 h7 h8 hlen
  simp only [AudioPacket.to_bytes, PacketHeader.write_to, u16_be, u32_be,
    List.cons_append, List.nil_append, AudioPacket.from_bytes, PacketHeader.read_from]
  rw [u16_be_roundtrip cid h1, u16_be_roundtrip uid h2, u16_be_roundtrip seq h3,
    u32_be_roundtrip ts h4, u16_be_roundtrip al h7, u16_be_roundtrip hm h8,
    Nat.mod_eq_of_lt h5, Nat.mod_eq_of_lt h6]
  simp [hlen]

/-- Witness for claim C4 at a concrete header and payload. -/
theorem c4_packet_roundtrip_witness :
    AudioPacket.from_bytes
        (AudioPacket.to_bytes ⟨⟨4660, 22136, 39612, 3735928559, 200, 20, 3, 51966⟩,
          [9, 8, 7]⟩) =
      Except.ok ⟨⟨4660, 22136, 39612, 3735928559, 200, 20, 3, 51966⟩, [9, 8, 7]⟩ :=
  c4_packet_roundtrip ⟨4660, 22136, 39612, 3735928559, 200, 20, 3, 51966⟩ [9, 8, 7]
    (by decide) (by decide) (by decide) (by decide) (by decide) (by decide)
    (by decide) (by decide) (by decide)

/-- Claim C5: `from_bytes` fails with `TooShort` exactly on inputs shorter
than 16 bytes; on longer inputs the fixed 16-byte header parses (consuming 16
bytes), and the result is `InvalidLength{expected = audio_length,
actual = remaining}` exactly when the remaining byte count differs from the
parsed `audio_length`, and success otherwise. -/
theorem c5_from_bytes_classification (data : List Nat) :
    (data.length < 16 → AudioPacket.from_bytes data = Except.error PacketError.TooShort) ∧
    (16 ≤ data.length →
      ∃ h : PacketHeader, PacketHeader.read_from data = Except.ok (h, data.drop 16) ∧
        (data.length - 16 ≠ h.audio_length →
          AudioPacket.from_bytes data =
            Except.error (PacketError.InvalidLength h.audio_length (data.length - 16))) ∧
        (data.length - 16 = h.audio_length →
          AudioPacket.from_bytes data = Except.ok ⟨h, data.drop 16⟩)) ∧
    (AudioPacket.from_bytes data = Except.error PacketError.TooShort → data.length < 16) := by
  match data with
  | [] => refine ⟨fun _ => rfl, fun hlen => by simp at hlen, fun _ => by simp⟩
  | [b0] => refine ⟨fun _ => rfl, fun hlen => by simp at hlen, fun _ => by simp⟩
  | [b0, b1] => refine ⟨fun _ => rfl, fun hlen => by simp at hlen, fun _ => by simp⟩
  | [b0, b1, b2] => refine ⟨fun _ => rfl, fun hlen => by simp at hlen, fun _ => by simp⟩
  | [b0, b1, b2, b3] => refine ⟨fun _ => rfl, fun hlen => by simp at hlen, fun _ => by simp⟩
  | [b0, b1, b2, b3, b4] => refine ⟨fun _ => rfl, fun hlen => by simp at hlen, fun _ => by simp⟩
  | [b0, b1, b2, b3, b4, b5] =>
    refine ⟨fun _ => rfl, fun hlen => by simp at hlen, fun _ => by simp⟩
  | [b0, b1, b2, b3, b4, b5, b6] =>
    refine ⟨fun _ => rfl, fun hlen => by simp at hlen, fun _ => by simp⟩
  | [b0, b1, b2, b3, b4, b5, b6, b7] =>
    refine ⟨fun _ => rfl, fun hlen => by simp at hlen, fun _ => by simp⟩
  | [b0, b1, b2, b3, b4, b5, b6, b7, b8] =>
    refine ⟨fun _ => rfl, fun hlen => by simp at hlen, fun _ => by simp⟩
  | [b0, b1, b2, b3, b4, b5, b6, b7, b8, b9] =>
    refine ⟨fun _ => rfl, fun hlen => by simp at hlen, fun _ => by simp⟩
  | [b0, b1, b2, b3, b4, b5, b6, b7, b8, b9, b10] =>
    refine ⟨fun _ => rfl, fun hlen => by simp at hlen, fun _ => by simp⟩
  | [b0, b1, b2, b3, b4, b5, b6, b7, b8, b9, b10, b11] =>
    refine ⟨fun _ => rfl, fun hlen => by simp at hlen, fun _ => by simp⟩
  | [b0, b1, b2, b3, b4, b5, b6, b7, b8, b9, b10, b11, b12] =>
    refine ⟨fun _ => rfl, fun hlen => by simp at hlen, fun _ => by simp⟩
  | [b0, b1, b2, b3, b4, b5, b6, b7, b8, b9, b10, b11, b12, b13] =>
    refine ⟨fun _ => rfl, fun hlen => by simp at hlen, fun _ => by simp⟩
  | [b0, b1, b2, b3, b4, b5, b6, b7, b8, b9, b10, b11, b12, b13, b14] =>
    refine ⟨fun _ => rfl, fun hlen => by simp at hlen, fun _ => by simp⟩
  | b0 :: b1 :: b2 :: b3 :: b4 :: b5 :: b6 :: b7 :: b8 :: b9 :: b10 :: b11 ::
      b12 :: b13 :: b14 :: b15 :: rest =>
    refine ⟨fun hshort => by simp at hshort; omega, fun _ => ?_, fun herr => ?_⟩
    · refine ⟨⟨get_u16 b0 b1, get_u16 b2 b3, get_u16 b4 b5, get_u32 b6 b7 b8 b9,
        b10, b11, get_u16 b12 b13, get_u16 b14 b15⟩, ?_, ?_, ?_⟩
      · simp [PacketHeader.read_from]
      · intro hne
        have hlen16 : (b0 :: b1 :: b2 :: b3 :: b4 :: b5 :: b6 :: b7 :: b8 :: b9 ::
            b10 :: b11 :: b12 :: b13 :: b14 :: b15 :: rest).length - 16 = rest.length := by
          simp
        rw [hlen16] at hne ⊢
        simp only [AudioPacket.from_bytes, PacketHeader.read_from]
        rw [if_pos hne]
      · intro heq
        have hlen16 : (b0 :: b1 :: b2 :: b3 :: b4 :: b5 :: b6 :: b7 :: b8 :: b9 ::
            b10 :: b11 :: b12 :: b13 :: b14 :: b15 :: rest).length - 16 = rest.length := by
          simp
        rw [hlen16] at heq
        simp only [AudioPacket.from_bytes, PacketHeader.read_from]
        rw [if_neg (by simpa using heq)]
        simp
    · exfalso
      simp only [AudioPacket.from_bytes, PacketHeader.read_from] at herr
      by_cases hc : rest.length ≠ get_u16 b12 b13
      · rw [if_pos hc] at herr
        exact absurd herr (by simp)
      · rw [if_neg hc] at herr
        exact absurd herr (by simp)

/-- Witness for claim C5: a 3-byte input is rejected as `TooShort`; a 17-byte
input whose header declares `audio_length = 9` is rejected as
`InvalidLength` with expected 9 and actual 1. -/
theorem c5_from_bytes_witness :
    AudioPacket.from_bytes [1, 2, 3] = Except.error PacketError.TooShort ∧
    AudioPacket.from_bytes [0, 0, 0, 0, 0, 0, 0, 0, 0, 0, 0, 0, 0, 9, 0, 0, 5] =
      Except.error (PacketError.InvalidLength 9 1) := by
  constructor
  · exact (c5_from_bytes_classification [1, 2, 3]).1 (by decide)
  · obtain ⟨h, hread, hbad, _⟩ :=
      (c5_from_bytes_classification
        [0, 0, 0, 0, 0, 0, 0, 0, 0, 0, 0, 0, 0, 9, 0, 0, 5]).2.1 (by decide)
    have hh : h = ⟨0, 0, 0, 0, 0, 0, 9, 0⟩ := by
      have := hread
      simp [PacketHeader.read_from, get_u16, get_u32] at this
      exact this.symm
    rw [hh] at hbad
    simpa using hbad (by decide)

/-! ## Connection framing (`fleet-net-protocol/src/connection.rs`) -/

/-- `Connection::read_message` over a byte stream modelled as the list of
bytes the peer will deliver.  `from_slice` abstracts
`serde_json::from_slice`; its error message is wrapped by the
`From<serde_json::Error>` impl into `JsonError`.  A failing `read_exact`
(fewer bytes available than requested) produces the io `UnexpectedEof` error,
whose display text is `failed to fill whole buffer`, wrapped by the
`From<std::io::Error>` impl into `NetworkError`. -/
def read_message {Msg : Type} (from_slice : List Nat → Except String Msg)
    (stream : List Nat) : Except FleetNetError Msg :=
  match stream with
  | b0 :: b1 :: b2 :: b3 :: rest =>
    let length := get_u32 b0 b1 b2 b3
    if rest.length < length then
      Except.error (FleetNetError.NetworkError "failed to fill whole buffer")
    else
      let buffer := rest.take length
      if buffer.length ≠ length then
        Except.error (FleetNetError.PacketError
          "Received message length does not match expected length")
      else
        match from_slice buffer with
        | Except.error e => Except.error (FleetNetError.JsonError e)
        | Except.ok m => Except.ok m
  | _ => Except.error (FleetNetError.NetworkError "failed to fill whole buffer")

theorem read_message_body {Msg : Type} (from_slice : List Nat → Except String Msg)
    (b0 b1 b2 b3 : Nat) (rest : List Nat) (hle : get_u32 b0 b1 b2 b3 ≤ rest.length) :
    read_message from_slice (b0 :: b1 :: b2 :: b3 :: rest) =
      match from_slice (rest.take (get_u32 b0 b1 b2 b3)) with
      | Except.error e => Except.error (FleetNetError.JsonError e)
      | Except.ok m => Except.ok m := by
  have hnlt : ¬ rest.length < get_u32 b0 b1 b2 b3 := Nat.not_lt.mpr hle
  simp only [read_message, if_neg hnlt]
  rw [if_neg]
  simp only [List.length_take, ne_eq]
  omega

/-- Claim C3 counterexample: a declared length of 5 with only 3 bytes
available surfaces `NetworkError` (the translated io `UnexpectedEof`), and a
failing deserialization surfaces `JsonError` — neither failure surfaces the
`PacketError` kind claimed. -/
theorem c3_read_message_wrong_kinds :
    read_message (fun _ => (Except.error "malformed" : Except String Unit))
        [0, 0, 0, 5, 1, 2, 3] =
      Except.error (FleetNetError.NetworkError "failed to fill whole buffer") ∧
    read_message (fun _ => (Except.error "malformed" : Except String Unit))
        [0, 0, 0, 0] =
      Except.error (FleetNetError.JsonError "malformed") :=
  ⟨rfl, rfl⟩

/-- Claim C3 (amended): when the declared big-endian length prefix exceeds the
bytes available, `read_message` fails with `NetworkError` (the wrapped io
error of the failed exact read); when deserialization of the payload fails it
fails with `JsonError` (the wrapped serde error); it succeeds otherwise, and
it never surfaces a `PacketError` — the explicit `PacketError` length check in
the source is unreachable because `read_exact` already fills the buffer to
exactly the declared length or fails first. -/
theorem c3_read_message_error_kinds {Msg : Type}
    (from_slice : List Nat → Except String Msg) (b0 b1 b2 b3 : Nat) (rest : List Nat) :
    (rest.length < get_u32 b0 b1 b2 b3 →
      read_message from_slice (b0 :: b1 :: b2 :: b3 :: rest) =
        Except.error (FleetNetError.NetworkError "failed to fill whole buffer")) ∧
    (∀ e, get_u32 b0 b1 b2 b3 ≤ rest.length →
      from_slice (rest.take (get_u32 b0 b1 b2 b3)) = Except.error e →
      read_message from_slice (b0 :: b1 :: b2 :: b3 :: rest) =
        Except.error (FleetNetError.JsonError e)) ∧
    (∀ m, get_u32 b0 b1 b2 b3 ≤ rest.length →
      from_slice (rest.take (get_u32 b0 b1 b2 b3)) = Except.ok m →
      read_message from_slice (b0 :: b1 :: b2 :: b3 :: rest) = Except.ok m) ∧
    (∀ stream msg, read_message from_slice stream ≠
      Except.error (FleetNetError.PacketError msg)) := by
  refine ⟨?_, ?_, ?_, ?_⟩
  · intro hlt
    simp [read_message, hlt]
  · intro e hle hdec
    rw [read_message_body from_slice b0 b1 b2 b3 rest hle, hdec]
  · intro m hle hdec
    rw [read_message_body from_slice b0 b1 b2 b3 rest hle, hdec]
  · intro stream msg
    match stream with
    | [] => simp [read_message]
    | [c0] => simp [read_message]
    | [c0, c1] => simp [read_message]
    | [c0, c1, c2] => simp [read_message]
    | c0 :: c1 :: c2 :: c3 :: crest =>
      by_cases hlt : crest.length < get_u32 c0 c1 c2 c3
      · simp [read_message, hlt]
      · rw [read_message_body from_slice c0 c1 c2 c3 crest (Nat.not_lt.mp hlt)]
        cases from_slice (crest.take (get_u32 c0 c1 c2 c3)) <;> simp

/-- Witness for the amended claim C3 at concrete inputs. -/
theorem c3_read_message_error_kinds_witness :
    read_message (fun _ => (Except.error "bad" : Except String Unit)) [0, 0, 0, 2, 7, 8] =
      Except.error (FleetNetError.JsonError "bad") ∧
    read_message (fun _ => (Except.error "bad" : Except String Unit)) [0, 0, 0, 9] =
      Except.error (FleetNetError.NetworkError "failed to fill whole buffer") :=
  ⟨(c3_read_message_error_kinds (fun _ => (Except.error "bad" : Except String Unit))
      0 0 0 2 [7, 8]).2.1 "bad" (by decide) rfl,
   (c3_read_message_error_kinds (fun _ => (Except.error "bad" : Except String Unit))
      0 0 0 9 []).1 (by decide)⟩

/-! ## Key manager (`fleet-net-protocol/src/key_manager.rs`) -/

/-- Incremental SHA-256 hasher state: the byte stream absorbed so far.  The
digest computation of the `sha2` crate is a parameter of `finalize`. -/
structure Sha256 where
  absorbed : List Nat

def Sha256.new : Sha256 := ⟨[]⟩

def Sha256.update (st : Sha256) (data : List Nat) : Sha256 := ⟨st.absorbed ++ data⟩

def Sha256.finalize (digest : List Nat → List Nat) (st : Sha256) : List Nat :=
  digest st.absorbed

/-- `KeyManager::generate_session_key`, parameterized by the SHA-256 digest
function: absorb `server_secret`, then the big-endian bytes of the `u16`
`user_id`, then `session_nonce`; the key copies the first 32 bytes of the
digest (`result[..32]`). -/
def generate_session_key (digest : List Nat → List Nat) (user_id : Nat)
    (server_secret session_nonce : List Nat) : List Nat :=
  let hasher := Sha256.new
  let hasher := hasher.update server_secret
  let hasher := hasher.update (u16_be user_id)
  let hasher := hasher.update session_nonce
  let result := hasher.finalize digest
  result.take 32

/-- Claim C8: for any 32-byte digest function, `generate_session_key` returns
exactly the full digest of `server_secret ++ big-endian(user_id) ++
session_nonce`; being a pure function of its three inputs, identical inputs
always yield identical keys. -/
theorem c8_session_key (digest : List Nat → List Nat)
    (hlen : ∀ m, (digest m).length = 32) (user_id : Nat)
    (server_secret session_nonce : List Nat) :
    generate_session_key digest user_id server_secret session_nonce =
      digest (server_secret ++ u16_be user_id ++ session_nonce) := by
  simp only [generate_session_key, Sha256.new, Sha256.update, Sha256.finalize,
    List.nil_append]
  exact List.take_of_length_le (by simp [hlen])

/-- Witness for claim C8 with a concrete (constant) 32-byte digest function. -/
theorem c8_session_key_witness :
    generate_session_key (fun _ => List.replicate 32 0) 42 [1] [2] =
      (fun _ => List.replicate 32 0) ([1] ++ u16_be 42 ++ [2]) :=
  c8_session_key (fun _ => List.replicate 32 0) (fun m => by simp) 42 [1] [2]

/-! ## TLS configuration (`fleet-net-protocol/src/tls.rs`) -/

/-- Private key in one of the three PEM formats tried by `load_private_key`. -/
inductive PemKey where
  | Pkcs8 (der : List Nat)
  | Pkcs1 (der : List Nat)
  | Sec1 (der : List Nat)
deriving DecidableEq, Repr

/-- The `rustls_pemfile` decoding functions, abstracted: each returns the list
of DER items found in the file content, or a decode error message. -/
structure Pemfile where
  pkcs8_private_keys : List Nat → Except String (List (List Nat))
  rsa_private_keys : List Nat → Except String (List (List Nat))
  ec_private_keys : List Nat → Except String (List (List Nat))
  certs : List Nat → Except String (List (List Nat))

/-- `TlsConfig`, carrying the material the built configuration was made of. -/
structure TlsConfig where
  server_config : Option (List (List Nat) × PemKey)
  client_config : Option (List (List Nat))
deriving DecidableEq, Repr

/-- `TlsConfig::load_private_key`, with the filesystem (`fs`; `none` when the
file cannot be opened) and the PEM decoders as parameters.  PKCS8 is tried
first, then PKCS1/RSA after reopening the file, then SEC1/EC; the first
format with a non-empty key list wins, and only when all three find nothing
does it give up. -/
def load_private_key (pem : Pemfile) (fs : String → Option (List Nat))
    (path : String) : Except FleetNetError PemKey :=
  match fs path with
  | none => Except.error (FleetNetError.FileSystemError "Failed to open key file")
  | some content =>
    match pem.pkcs8_private_keys content with
    | Except.error _ =>
      Except.error (FleetNetError.EncryptionError "Failed to read PKCS8 private key")
    | Except.ok (k :: _) => Except.ok (PemKey.Pkcs8 k)
    | Except.ok [] =>
      match fs path with
      | none => Except.error (FleetNetError.FileSystemError "Failed to open key file")
      | some content2 =>
        match pem.rsa_private_keys content2 with
        | Except.error _ =>
          Except.error (FleetNetError.EncryptionError "Failed to read RSA private key")
        | Except.ok (k :: _) => Except.ok (PemKey.Pkcs1 k)
        | Except.ok [] =>
          match fs path with
          | none => Except.error (FleetNetError.FileSystemError "Failed to open key file")
          | some content3 =>
            match pem.ec_private_keys content3 with
            | Except.error _ =>
              Except.error (FleetNetError.EncryptionError "Failed to read EC private key")
            | Except.ok (k :: _) => Except.ok (PemKey.Sec1 k)
            | Except.ok [] =>
              Except.error
                (FleetNetError.EncryptionError "No valid private keys found in file")

/-- `TlsConfig::load_certs`. -/
def load_certs (pem : Pemfile) (fs : String → Option (List Nat))
    (path : String) : Except FleetNetError (List (List Nat)) :=
  match fs path with
  | none => Except.error (FleetNetError.FileSystemError "Failed to open file")
  | some content =>
    match pem.certs content with
    | Except.error _ =>
      Except.error (FleetNetError.EncryptionError "Failed to read certificates")
    | Except.ok cs =>
      if cs.isEmpty then
        Except.error (FleetNetError.EncryptionError "No certificates found in file")
      else Except.ok cs

/-- `TlsConfig::new_server`, with the rustls `with_single_cert` builder
abstracted as a parameter that may reject the material. -/
def new_server (pem : Pemfile) (fs : String → Option (List Nat))
    (with_single_cert : List (List Nat) → PemKey → Except String Unit)
    (cert_path key_path : String) : Except FleetNetError TlsConfig :=
  match load_certs pem fs cert_path with
  | Except.error e => Except.error e
  | Except.ok certs =>
    match load_private_key pem fs key_path with
    | Except.error e => Except.error e
    | Except.ok key =>
      match with_single_cert certs key with
      | Except.error _ =>
        Except.error (FleetNetError.EncryptionError "Failed to create TLS server config")
      | Except.ok _ => Except.ok ⟨some (certs, key), none⟩

/-- The loop adding every CA certificate to the rustls root store. -/
def add_all (root_store_add : List Nat → Except String Unit) :
    List (List Nat) → Except String Unit
  | [] => Except.ok ()
  | c :: cs =>
    match root_store_add c with
    | Except.error e => Except.error e
    | Except.ok _ => add_all root_store_add cs

/-- `TlsConfig::new_client`, with the root store `add` abstracted. -/
def new_client (pem : Pemfile) (fs : String → Option (List Nat))
    (root_store_add : List Nat → Except String Unit)
    (ca_cert_path : String) : Except FleetNetError TlsConfig :=
  match load_certs pem fs ca_cert_path with
  | Except.error e => Except.error e
  | Except.ok ca_certs =>
    match add_all root_store_add ca_certs with
    | Except.error _ =>
      Except.error
        (FleetNetError.EncryptionError "Failed to add CA certificate to root store")
    | Except.ok _ => Except.ok ⟨none, some ca_certs⟩

/-- Claim C9: `new_server` and `new_client` fail with the `FileSystemError`
kind when a certificate or key file cannot be opened, and with the distinct
`EncryptionError` kind when PEM decoding fails or yields zero certificates or
zero private keys, the message naming what was missing; private-key loading
tries PKCS8, then PKCS1/RSA, then SEC1/EC, in this order, before giving up. -/
theorem c9_tls_error_classification (pem : Pemfile) (fs : String → Option (List Nat))
    (wsc : List (List Nat) → PemKey → Except String Unit)
    (radd : List Nat → Except String Unit) (cp kp : String) :
    (fs cp = none →
      new_server pem fs wsc cp kp =
        Except.error (FleetNetError.FileSystemError "Failed to open file") ∧
      new_client pem fs radd cp =
        Except.error (FleetNetError.FileSystemError "Failed to open file")) ∧
    (∀ c, fs cp = some c → pem.certs c = Except.ok [] →
      new_server pem fs wsc cp kp =
        Except.error (FleetNetError.EncryptionError "No certificates found in file") ∧
      new_client pem fs radd cp =
        Except.error (FleetNetError.EncryptionError "No certificates found in file")) ∧
    (∀ c e, fs cp = some c → pem.certs c = Except.error e →
      new_server pem fs wsc cp kp =
        Except.error (FleetNetError.EncryptionError "Failed to read certificates")) ∧
    (∀ certs, load_certs pem fs cp = Except.ok certs → fs kp = none →
      new_server pem fs wsc cp kp =
        Except.error (FleetNetError.FileSystemError "Failed to open key file")) ∧
    (∀ kc, fs kp = some kc →
      pem.pkcs8_private_keys kc = Except.ok [] →
      pem.rsa_private_keys kc = Except.ok [] →
      pem.ec_private_keys kc = Except.ok [] →
      load_private_key pem fs kp =
        Except.error (FleetNetError.EncryptionError "No valid private keys found in file")) ∧
    (∀ kc k t, fs kp = some kc → pem.pkcs8_private_keys kc = Except.ok (k :: t) →
      load_private_key pem fs kp = Except.ok (PemKey.Pkcs8 k)) ∧
    (∀ kc k t, fs kp = some kc →
      pem.pkcs8_private_keys kc = Except.ok [] →
      pem.rsa_private_keys kc = Except.ok (k :: t) →
      load_private_key pem fs kp = Except.ok (PemKey.Pkcs1 k)) ∧
    (∀ kc k t, fs kp = some kc →
      pem.pkcs8_private_keys kc = Except.ok [] →
      pem.rsa_private_keys kc = Except.ok [] →
      pem.ec_private_keys kc = Except.ok (k :: t) →
      load_private_key pem fs kp = Except.ok (PemKey.Sec1 k)) ∧
    (∀ m1 m2, FleetNetError.FileSystemError m1 ≠ FleetNetError.EncryptionError m2) := by
  refine ⟨?_, ?_, ?_, ?_, ?_, ?_, ?_, ?_, ?_⟩
  · intro hcp
    exact ⟨by simp [new_server, load_certs, hcp], by simp [new_client, load_certs, hcp]⟩
  · intro c hcp hcerts
    exact ⟨by simp [new_server, load_certs, hcp, hcerts],
           by simp [new_client, load_certs, hcp, hcerts]⟩
  · intro c e hcp hcerts
    simp [new_server, load_certs, hcp, hcerts]
  · intro certs hcerts hkp
    simp [new_server, hcerts, load_private_key, hkp]
  · intro kc hkp h8 hrsa hec
    simp [load_private_key, hkp, h8, hrsa, hec]
  · intro kc k t hkp h8
    simp [load_private_key, hkp, h8]
  · intro kc k t hkp h8 hrsa
    simp [load_private_key, hkp, h8, hrsa]
  · intro kc k t hkp h8 hrsa hec
    simp [load_private_key, hkp, h8, hrsa, hec]
  · intro m1 m2
    simp

/-- Pemfile decoders that find nothing anywhere. -/
def pemAllEmpty : Pemfile :=
  ⟨fun _ => Except.ok [], fun _ => Except.ok [], fun _ => Except.ok [],
   fun _ => Except.ok []⟩

/-- Witness for claim C9 at concrete inputs: an unreadable certificate file
gives the filesystem kind; a readable key file in which no format finds a key
gives the encryption kind naming the missing keys. -/
theorem c9_tls_witness :
    new_server pemAllEmpty (fun _ => none) (fun _ _ => Except.ok ()) "c" "k" =
      Except.error (FleetNetError.FileSystemError "Failed to open file") ∧
    load_private_key pemAllEmpty (fun _ => some []) "k" =
      Except.error (FleetNetError.EncryptionError "No valid private keys found in file") :=
  ⟨((c9_tls_error_classification pemAllEmpty (fun _ => none) (fun _ _ => Except.ok ())
      (fun _ => Except.ok ()) "c" "k").1 rfl).1,
   ((c9_tls_error_classification pemAllEmpty (fun _ => some []) (fun _ _ => Except.ok ())
      (fun _ => Except.ok ()) "c" "k").2.2.2.2.1) [] rfl rfl rfl rfl⟩

end FleetNet
